import Mathlib

/-!
# Verification of the batch URL health-check utility

A shallow embedding of `main.go`: the input loader (`readURLs`, scheme
normalization), the checker (`checkURL` over an explicit model of the
network fetch), the worker-pool coordinator (a small-step transition
system over channel/worker state), and the aggregator (sorting by URL,
table rendering, the manual `--json` argument scan).
-/

namespace URLHealth

/-- `Result` mirrors the Go struct `Result` field for field.
`StatusCode` (Go `int`) and the non-negative counters are modelled as `Nat`. -/
structure Result where
  URL : String
  StatusCode : Nat
  OK : Bool
  TTFBMs : Nat
  SizeBytes : Nat
  Contains : Option Bool
  Error : String
deriving DecidableEq, Repr

/-- Outcome of `io.ReadAll(resp.Body)`: either the full body, or the error
message of the failure. -/
inductive BodyRead where
  | ok (body : String)
  | err (msg : String)
deriving DecidableEq, Repr

/-- Model of what the network did for one `client.Get(url)` call:
either a transport-level failure (DNS, refused, timeout, TLS) with the
error message, or a response with its status code, the elapsed ms until
the headers arrived, and the result of reading the body. -/
inductive FetchResult where
  | getError (msg : String)
  | response (code : Nat) (ttfbMs : Nat) (body : BodyRead)
deriving DecidableEq, Repr

/-- Real Go errors carry non-empty messages and real HTTP responses carry a
positive status code (`net/http` rejects codes below 100); this predicate
records those environment facts. -/
def FetchWF : FetchResult → Prop
  | .getError msg => msg ≠ ""
  | .response code _ body => 0 < code ∧ ∀ m, body = .err m → m ≠ ""

/-- Whether the fetch reached the body-read step and failed there. -/
def bodyReadFailed : FetchResult → Bool
  | .response _ _ (.err _) => true
  | _ => false

/-- Whether the fetch delivered a complete body. -/
def bodyReadOk : FetchResult → Bool
  | .response _ _ (.ok _) => true
  | _ => false

/-- `sub.isPrefixOf l || ...` scan: does `sub` occur contiguously anywhere
in `l`?  Models Go `strings.Contains` at the character-list level. -/
def hasSubseqAux (sub : List Char) : List Char → Bool
  | [] => sub.isEmpty
  | c :: rest => sub.isPrefixOf (c :: rest) || hasSubseqAux sub rest

/-- Model of `strings.Contains(s, sub)`: raw, case-sensitive containment. -/
def strContains (s sub : String) : Bool :=
  hasSubseqAux sub.data s.data

/-- Shallow embedding of `checkURL` (main.go lines 49-79).  The network
behaviour for the single `client.Get` is an explicit `FetchResult`
argument; everything after it is the Go control flow:
transport failure returns immediately with the zero-valued record plus the
error message; otherwise TTFB, status and OK are filled from the headers;
a body-read failure returns at that point (keeping status and OK, leaving
`SizeBytes` zero); on success `SizeBytes` is the byte length and
`Contains` is set only when the configured substring is non-empty. -/
def checkURL (url : String) (fetch : FetchResult) (contains : String) : Result :=
  match fetch with
  | .getError msg =>
      { URL := url, StatusCode := 0, OK := false, TTFBMs := 0, SizeBytes := 0,
        Contains := none, Error := msg }
  | .response code ttfb body =>
      match body with
      | .err msg =>
          { URL := url, StatusCode := code, OK := decide (200 ≤ code ∧ code < 300),
            TTFBMs := ttfb, SizeBytes := 0, Contains := none, Error := msg }
      | .ok b =>
          let base : Result :=
            { URL := url, StatusCode := code, OK := decide (200 ≤ code ∧ code < 300),
              TTFBMs := ttfb, SizeBytes := b.utf8ByteSize, Contains := none, Error := "" }
          if contains ≠ "" then
            { base with Contains := some (strContains b contains) }
          else base

/-- Model of Go `strings.TrimSpace`: remove leading and trailing
whitespace characters. -/
def trimSpace (s : String) : String :=
  ⟨((s.data.dropWhile Char.isWhitespace).reverse.dropWhile Char.isWhitespace).reverse⟩

/-- Model of Go `strings.HasPrefix(s, p)`. -/
def strStartsWith (s p : String) : Bool := p.data.isPrefixOf s.data

/-- Shallow embedding of `readURLs` (main.go lines 30-46), the scanner loop
over the file's lines: trim each line, keep it when non-empty. -/
def readURLs : List String → List String
  | [] => []
  | line :: rest =>
      let url := trimSpace line
      if url ≠ "" then url :: readURLs rest
      else readURLs rest

/-- The per-URL scheme normalization of main.go lines 129-133: prepend
`https://` unless an explicit `http://` or `https://` scheme is present. -/
def addScheme (u : String) : String :=
  if strStartsWith u "http://" || strStartsWith u "https://" then u
  else "https://" ++ u

/-- The in-place loop `urls[i] = "https://" + u` applied to the whole list. -/
def normalizeAll (urls : List String) : List String := urls.map addScheme

/-- The two fatal input conditions of main.go lines 118-126: `readURLs`
returned an error, or the retained list is empty. -/
inductive InputError where
  | ioError (msg : String)
  | emptyInput
deriving DecidableEq, Repr

/-- Both input failures call `os.Exit(1)`. -/
def exitCode : InputError → Nat := fun _ => 1

/-- The distinct stderr messages printed before exiting. -/
def stderrLine : InputError → String
  | .ioError m => "Ошибка чтения файла: " ++ m
  | .emptyInput => "Файл не содержит URL"

/-- The input phase of `main` (lines 118-133): `file` is the outcome of
opening and scanning the input file (`.error` = unreadable).  On success
the non-blank trimmed lines are normalized into the target list. -/
def loadTargets (file : Except String (List String)) : Except InputError (List String) :=
  match file with
  | .error e => .error (.ioError e)
  | .ok lines =>
      let urls := readURLs lines
      if urls.length = 0 then .error .emptyInput
      else .ok (normalizeAll urls)

/-! ## The worker-pool coordinator (main.go lines 135-164)

`urlChan` and `resultChan` are buffered to `len(urls)`, so the producer's
sends never block and the fill loop always completes; a worker's
`for url := range urlChan` only terminates once the channel is closed
*and* empty, and `close(urlChan)` happens after every URL was sent.  The
transition system below therefore starts in the post-fill state: `pending`
is the queue content, `inFlight` the multiset of targets currently held by
busy workers, `idle` the number of live workers not holding a target, and
`done` the multiset of targets whose `Result` has been sent to
`resultChan`.  `resultChan` is closed exactly when every worker has
terminated, i.e. in a `Terminal` state. -/

structure PoolState where
  pending : List String
  inFlight : Multiset String
  idle : Nat
  done : Multiset String
deriving DecidableEq

/-- One scheduler step of the pool: an idle worker receives the next
target; a busy worker finishes its `checkURL` call and sends the result;
an idle worker sees the closed, empty channel and returns. -/
inductive PoolStep : PoolState → PoolState → Prop
  | take (u : String) (rest : List String) (inFl : Multiset String) (idle : Nat)
      (done : Multiset String) :
      PoolStep ⟨u :: rest, inFl, idle + 1, done⟩ ⟨rest, u ::ₘ inFl, idle, done⟩
  | finish (u : String) (pending : List String) (inFl : Multiset String) (idle : Nat)
      (done : Multiset String) :
      PoolStep ⟨pending, u ::ₘ inFl, idle, done⟩ ⟨pending, inFl, idle + 1, u ::ₘ done⟩
  | exit (inFl : Multiset String) (idle : Nat) (done : Multiset String) :
      PoolStep ⟨[], inFl, idle + 1, done⟩ ⟨[], inFl, idle, done⟩

/-- The state right after the fill loop: every target queued, `w` workers
started and idle, nothing in flight, nothing delivered. -/
def initState (w : Nat) (urls : List String) : PoolState :=
  ⟨urls, 0, w, 0⟩

/-- Reachability under any interleaving of the scheduler. -/
def PoolReach : PoolState → PoolState → Prop :=
  Relation.ReflTransGen PoolStep

/-- `wg.Wait()` has returned and `resultChan` is closed: no live worker
remains (none idle, none holding a target). -/
def Terminal (s : PoolState) : Prop :=
  s.idle = 0 ∧ s.inFlight = 0

/-- The multiset of `Result` records the aggregator drains from
`resultChan` once it is closed, given the per-target network behaviour
`g` and the configured substring. -/
def collected (g : String → FetchResult) (contains : String) (s : PoolState) :
    Multiset Result :=
  s.done.map (fun u => checkURL u (g u) contains)

/-! ## The aggregator/reporter (main.go lines 166-199) -/

/-- The comparison `results[i].URL < results[j].URL` passed to
`sort.Slice`, as the non-strict order a sorted output satisfies. -/
def resultLe (a b : Result) : Prop := a.URL ≤ b.URL

/-- The output sequence is non-decreasing by target string. -/
def SortedByURL (rs : List Result) : Prop := rs.Pairwise resultLe

/-- Contract of `sort.Slice(results, less on URL)`: Go guarantees a sorted
permutation of the input, and nothing more (the algorithm is unstable). -/
def SortSpec (input output : List Result) : Prop :=
  input.Perm output ∧ SortedByURL output

/-- A concrete sorted permutation, used as the executable denotation of
`sort.Slice`; by `SortSpec` uniqueness it is the only possible output when
records are determined by their URL. -/
def sortResults (rs : List Result) : List Result :=
  rs.mergeSort (fun a b => decide (a.URL ≤ b.URL))

/-- The OK column of `printTable` (main.go lines 186-189): the printed
flag is forced to `"false"` whenever an error message is present. -/
def okCell (r : Result) : String :=
  if r.Error = "" then (if r.OK then "true" else "false") else "false"

/-- The status column: `"-"` when no response was obtained. -/
def statusCell (r : Result) : String :=
  if r.StatusCode = 0 then "-" else toString r.StatusCode

/-- The data rows of the table, one per result, in result order. -/
def tableRows (rs : List Result) : List (String × String) :=
  rs.map (fun r => (r.URL, okCell r))

/-! ## The manual scan for `--json` (main.go lines 88-116)

The Go loop walks `os.Args[1:]` with a `skip` flag; `jsonOutput` starts
`""` and later matches overwrite it; every non-`--json` argument is
appended to `newArgs` for `flag.Parse`.  The recursion below carries the
current `jsonOutput` value and returns the final value together with
`newArgs`. -/

def scanJSONArgs : List String → String → String × List String
  | [], j => (j, [])
  | arg :: rest, j =>
      if arg = "--json" then
        match rest with
        | next :: rest2 =>
            if strStartsWith next "-" then scanJSONArgs (next :: rest2) "results.json"
            else scanJSONArgs rest2 next
        | [] => scanJSONArgs [] "results.json"
      else if strStartsWith arg "--json=" then
        scanJSONArgs rest (arg.drop 7)
      else
        let p := scanJSONArgs rest j
        (p.1, arg :: p.2)

/-- Entry point of the scan: `var jsonOutput string` starts empty. -/
def parseJSONOption (args : List String) : String × List String :=
  scanJSONArgs args ""

/-! ## A sequential denotation of the whole run

Justified by the coordinator theorems (the collected multiset is exactly
one result per target) and by the sort-uniqueness theorem, the observable
run is: load targets, check each, sort by URL. -/

def runMain (file : Except String (List String)) (g : String → FetchResult)
    (contains : String) : Except InputError (List Result) :=
  match loadTargets file with
  | .error e => .error e
  | .ok targets => .ok (sortResults (targets.map (fun u => checkURL u (g u) contains)))

/-! ## Checker theorems -/

/-- C2 counterexample: when the response headers arrive with status 200 but
the body read fails, `checkURL` stores a non-empty `Error` while
`StatusCode` is 200, not 0 — the claimed biconditional fails. -/
theorem check_error_iff_zero_status_fails :
    (checkURL "https://a" (.response 200 3 (.err "read failed")) "").Error ≠ "" ∧
    (checkURL "https://a" (.response 200 3 (.err "read failed")) "").StatusCode ≠ 0 := by
  constructor <;> decide

/-- C2 (amended): for well-formed network behaviour, `Error` is non-empty
iff `StatusCode = 0` (transport failure) or the body read failed after a
response was obtained. -/
theorem check_error_iff_zero_status_or_body_failure (url : String) (fetch : FetchResult)
    (contains : String) (hwf : FetchWF fetch) :
    (checkURL url fetch contains).Error ≠ "" ↔
      ((checkURL url fetch contains).StatusCode = 0 ∨ bodyReadFailed fetch = true) := by
  cases fetch with
  | getError msg =>
      simp only [FetchWF] at hwf
      simp [checkURL, bodyReadFailed, hwf]
  | response code ttfb body =>
      obtain ⟨hcode, hbody⟩ := hwf
      cases body with
      | err msg =>
          have hmsg : msg ≠ "" := hbody msg rfl
          simp [checkURL, bodyReadFailed, hmsg, Nat.pos_iff_ne_zero.mp hcode]
      | ok b =>
          by_cases hc : contains = "" <;>
            simp [checkURL, bodyReadFailed, hc, Nat.pos_iff_ne_zero.mp hcode]

/-- C2 witness: the amended biconditional applied to a concrete DNS
failure. -/
theorem check_error_iff_witness :
    (checkURL "https://x" (.getError "no such host") "").Error ≠ "" ↔
      ((checkURL "https://x" (.getError "no such host") "").StatusCode = 0 ∨
        bodyReadFailed (.getError "no such host") = true) :=
  check_error_iff_zero_status_or_body_failure "https://x" (.getError "no such host") ""
    (show ("no such host" : String) ≠ "" by decide)

/-- C3 counterexample: a 204 response whose body read fails is stored with
`OK = true` and a non-empty `Error` — the stored record (hence the JSON
file) violates the claimed implication. -/
theorem stored_ok_with_error_exists :
    (checkURL "https://a" (.response 204 3 (.err "conn reset")) "").Error ≠ "" ∧
    (checkURL "https://a" (.response 204 3 (.err "conn reset")) "").OK = true := by
  constructor <;> decide

/-- C3 (amended): `OK = true` always implies the status is in [200,300);
on every path except a body-read failure a non-empty `Error` implies
`OK = false` (and an empty `Error`, when the body was read in full);
and the *printed* success flag is forced to `"false"` whenever `Error` is
non-empty.  The stored record itself keeps `OK = true` when a 2xx
response's body read fails. -/
theorem check_ok_invariant (url : String) (fetch : FetchResult) (contains : String) :
    ((checkURL url fetch contains).OK = true →
      200 ≤ (checkURL url fetch contains).StatusCode ∧
        (checkURL url fetch contains).StatusCode < 300) ∧
    (bodyReadFailed fetch = false → (checkURL url fetch contains).Error ≠ "" →
      (checkURL url fetch contains).OK = false) ∧
    ((checkURL url fetch contains).Error ≠ "" → okCell (checkURL url fetch contains) = "false") := by
  cases fetch with
  | getError msg => simp [checkURL, bodyReadFailed, okCell]
  | response code ttfb body =>
      cases body with
      | err msg =>
          refine ⟨?_, ?_, ?_⟩
          · intro h
            simpa [checkURL] using of_decide_eq_true (by simpa [checkURL] using h)
          · intro h
            simp [bodyReadFailed] at h
          · intro h
            simp only [checkURL] at h ⊢
            simp [okCell, h]
      | ok b =>
          by_cases hc : contains = ""
          · refine ⟨?_, ?_, ?_⟩
            · intro h
              simpa [checkURL, hc] using of_decide_eq_true (by simpa [checkURL, hc] using h)
            · intro _ h
              simp [checkURL, hc] at h
            · intro h
              simp [checkURL, hc] at h
          · refine ⟨?_, ?_, ?_⟩
            · intro h
              simpa [checkURL, hc] using of_decide_eq_true (by simpa [checkURL, hc] using h)
            · intro _ h
              simp [checkURL, hc] at h
            · intro h
              simp [checkURL, hc] at h

/-- C3 witness: the amended invariant applied to a 404 body-read-complete
response and to a transport failure. -/
theorem check_ok_invariant_witness :
    okCell (checkURL "https://y" (.getError "timeout") "") = "false" ∧
    (200 ≤ (checkURL "https://y" (.response 226 2 (.ok "done")) "").StatusCode ∧
      (checkURL "https://y" (.response 226 2 (.ok "done")) "").StatusCode < 300) := by
  constructor
  · exact (check_ok_invariant "https://y" (.getError "timeout") "").2.2 (by decide)
  · exact (check_ok_invariant "https://y" (.response 226 2 (.ok "done")) "").1 (by decide)

/-- C4 counterexample: on a body-read failure after a 201 response the
stored `OK` is `true`, not the claimed `false`. -/
theorem body_failure_keeps_ok_true :
    (checkURL "https://b" (.response 201 7 (.err "io timeout")) "s").Error = "io timeout" ∧
    (checkURL "https://b" (.response 201 7 (.err "io timeout")) "s").OK = true := by
  constructor <;> decide

/-- C4 (amended): on a body-read failure the checker records the failure
cause in `Error`, zero `SizeBytes`, no `Contains`, the latency and the
status taken from the response header — and `OK` keeps the value derived
from that status (`true` exactly for 2xx), rather than being reset to
`false`. -/
theorem check_body_failure_outcome (url : String) (code ttfb : Nat) (msg contains : String) :
    (checkURL url (.response code ttfb (.err msg)) contains).Error = msg ∧
    (checkURL url (.response code ttfb (.err msg)) contains).SizeBytes = 0 ∧
    (checkURL url (.response code ttfb (.err msg)) contains).StatusCode = code ∧
    (checkURL url (.response code ttfb (.err msg)) contains).Contains = none ∧
    (checkURL url (.response code ttfb (.err msg)) contains).TTFBMs = ttfb ∧
    (checkURL url (.response code ttfb (.err msg)) contains).OK =
      decide (200 ≤ code ∧ code < 300) := by
  simp [checkURL]

/-- C7: `Contains` is present iff a non-empty substring was configured and
the body was read in full; when present it is exactly the raw containment
test on the body; on transport failure and on body-read failure it is
absent. -/
theorem contains_present_iff (url : String) (fetch : FetchResult) (c : String) :
    ((checkURL url fetch c).Contains.isSome = true ↔ (c ≠ "" ∧ bodyReadOk fetch = true)) ∧
    (∀ code ttfb body, c ≠ "" →
      (checkURL url (.response code ttfb (.ok body)) c).Contains = some (strContains body c)) ∧
    (∀ msg, (checkURL url (.getError msg) c).Contains = none) ∧
    (∀ code ttfb msg, (checkURL url (.response code ttfb (.err msg)) c).Contains = none) := by
  refine ⟨?_, ?_, ?_, ?_⟩
  · cases fetch with
    | getError msg => simp [checkURL, bodyReadOk]
    | response code ttfb body =>
        cases body with
        | err msg => simp [checkURL, bodyReadOk]
        | ok b => by_cases hc : c = "" <;> simp [checkURL, bodyReadOk, hc]
  · intro code ttfb body hc
    simp [checkURL, hc]
  · intro msg
    simp [checkURL]
  · intro code ttfb msg
    simp [checkURL]

/-- C7 witness: a body containing the configured substring yields
`Contains = some true`; a DNS failure with the same substring yields
`Contains = none`. -/
theorem contains_present_witness :
    (checkURL "https://x" (.response 200 1 (.ok "hello")) "ell").Contains = some true ∧
    (checkURL "https://x" (.getError "no such host") "ell").Contains = none := by
  constructor
  · have h := (contains_present_iff "https://x" (.response 200 1 (.ok "hello")) "ell").2.1
      200 1 "hello" (by decide)
    rw [h]
    decide
  · exact (contains_present_iff "https://x" (.getError "no such host") "ell").2.2.1 "no such host"

/-! ## Input-loader theorems -/

/-- C6: the loader keeps exactly the non-blank trimmed lines, in order and
without deduplication (the retained list is literally the filtered map, so
multiplicities and first-appearance order are preserved); a retained line
with an explicit scheme is left unmodified and any other retained line
gets `https://` prepended. -/
theorem loader_trim_filter_scheme (lines : List String) :
    readURLs lines = (lines.map trimSpace).filter (fun s => decide (s ≠ "")) ∧
    (∀ u, (strStartsWith u "http://" = true ∨ strStartsWith u "https://" = true) →
      addScheme u = u) ∧
    (∀ u, strStartsWith u "http://" = false → strStartsWith u "https://" = false →
      addScheme u = "https://" ++ u) ∧
    normalizeAll (readURLs lines) = (readURLs lines).map addScheme ∧
    (∀ t, t ≠ "" → (readURLs lines).count t = (lines.map trimSpace).count t) := by
  have hchar : readURLs lines = (lines.map trimSpace).filter (fun s => decide (s ≠ "")) := by
    induction lines with
    | nil => rfl
    | cons l rest ih =>
        by_cases h : trimSpace l = ""
        · simp [readURLs, h, ih]
        · simp [readURLs, h, ih]
  refine ⟨hchar, ?_, ?_, rfl, ?_⟩
  · intro u hu
    rcases hu with h | h <;> simp [addScheme, h]
  · intro u h1 h2
    simp [addScheme, h1, h2]
  · intro t ht
    rw [hchar, List.count_filter (by simpa using ht)]

/-- C6 witness: the loader facts applied to a concrete input file with a
blank line, a padded schemeless line and an explicit `http://` line. -/
theorem loader_witness :
    readURLs [" a.com ", "", "http://b"] =
      ([" a.com ", "", "http://b"].map trimSpace).filter (fun s => decide (s ≠ "")) ∧
    addScheme "http://b" = "http://b" ∧
    addScheme "a.com" = "https://a.com" := by
  refine ⟨(loader_trim_filter_scheme [" a.com ", "", "http://b"]).1, ?_, ?_⟩
  · exact (loader_trim_filter_scheme []).2.1 "http://b" (Or.inl (by decide))
  · exact (loader_trim_filter_scheme []).2.2.1 "a.com" (by decide) (by decide)

/-- C8: an unreadable input file and an empty retained list both make the
run fail before any checking, with exit status 1, and the two conditions
are distinct (different error values, different stderr lines); `runMain`
produces no results on either path. -/
theorem input_failures_fail_fast (e : String) (lines : List String)
    (g : String → FetchResult) (c : String) :
    loadTargets (.error e) = .error (.ioError e) ∧
    (readURLs lines = [] → loadTargets (.ok lines) = .error .emptyInput) ∧
    (∀ err : InputError, exitCode err ≠ 0) ∧
    InputError.ioError e ≠ InputError.emptyInput ∧
    stderrLine (.ioError e) ≠ stderrLine .emptyInput ∧
    (∀ file err, loadTargets file = .error err → runMain file g c = .error err) := by
  refine ⟨rfl, ?_, ?_, ?_, ?_, ?_⟩
  · intro h
    simp [loadTargets, h]
  · intro err
    simp [exitCode]
  · simp
  · intro h
    have hlen := congrArg String.length h
    rw [stderrLine, stderrLine, String.length_append] at hlen
    have h1 : ("Ошибка чтения файла: " : String).length = 21 := by decide
    have h2 : ("Файл не содержит URL" : String).length = 20 := by decide
    omega
  · intro file err h
    simp [runMain, h]

/-- C8 witness: a concrete unreadable file and a concrete file of blank
lines both fail fast with the respective distinct errors. -/
theorem input_failures_witness :
    loadTargets (.ok ["", "   "]) = .error .emptyInput ∧
    runMain (.error "open urls.txt: no such file")
      (fun _ => .getError "unreached") "" = .error (.ioError "open urls.txt: no such file") := by
  constructor
  · exact (input_failures_fail_fast "" ["", "   "] (fun _ => .getError "unreached") "").2.1
      (by decide)
  · exact (input_failures_fail_fast "open urls.txt: no such file" []
      (fun _ => .getError "unreached") "").2.2.2.2.2 (.error "open urls.txt: no such file")
      (.ioError "open urls.txt: no such file") rfl

/-! ## Argument-scan theorems -/

/-- C10: the manual scan consumes `--json PATH` (a following argument not
starting with `-`) as the output path, removing both from the remaining
flags; a bare `--json` at the end or before a `-`-leading argument selects
`results.json` while leaving the following argument to be processed;
`--json=PATH` selects the text after `--json=`; and an argument list
containing no `--json` form passes through unchanged with the current
path kept. -/
theorem json_option_scan :
    (∀ (rest : List String) (j next : String), strStartsWith next "-" = false →
      scanJSONArgs ("--json" :: next :: rest) j = scanJSONArgs rest next) ∧
    (∀ j, scanJSONArgs ["--json"] j = ("results.json", [])) ∧
    (∀ (rest : List String) (j next : String), strStartsWith next "-" = true →
      scanJSONArgs ("--json" :: next :: rest) j =
        scanJSONArgs (next :: rest) "results.json") ∧
    (∀ (rest : List String) (j arg : String), arg ≠ "--json" →
      strStartsWith arg "--json=" = true →
      scanJSONArgs (arg :: rest) j = scanJSONArgs rest (arg.drop 7)) ∧
    (∀ (args : List String) (j : String),
      (∀ a ∈ args, a ≠ "--json" ∧ strStartsWith a "--json=" = false) →
      scanJSONArgs args j = (j, args)) := by
  refine ⟨?_, ?_, ?_, ?_, ?_⟩
  · intro rest j next h
    simp [scanJSONArgs, h]
  · intro j
    rfl
  · intro rest j next h
    simp [scanJSONArgs, h]
  · intro rest j arg h1 h2
    rw [scanJSONArgs.eq_def]
    simp [h1, h2]
  · intro args
    induction args with
    | nil => intro j _; rfl
    | cons a rest ih =>
        intro j h
        obtain ⟨⟨ha1, ha2⟩, hrest⟩ := List.forall_mem_cons.mp h
        rw [scanJSONArgs.eq_def]
        simp [ha1, ha2, ih j hrest]

/-- C10 witness: concrete command lines exercising each branch of the
scan, derived from the characterization. -/
theorem json_option_scan_witness :
    scanJSONArgs ["--json", "out.txt", "-w"] "" = scanJSONArgs ["-w"] "out.txt" ∧
    scanJSONArgs ["--json", "-w"] "" = scanJSONArgs ["-w"] "results.json" ∧
    scanJSONArgs ["--json=x.json", "-w"] "" = scanJSONArgs ["-w"] "x.json" ∧
    scanJSONArgs ["-w", "3"] "results.json" = ("results.json", ["-w", "3"]) ∧
    parseJSONOption ["--json", "out.txt", "-w"] = ("out.txt", ["-w"]) := by
  refine ⟨?_, ?_, ?_, ?_, ?_⟩
  · exact json_option_scan.1 ["-w"] "" "out.txt" (by decide)
  · exact json_option_scan.2.2.1 [] "" "-w" (by decide)
  · have h := json_option_scan.2.2.2.1 ["-w"] "" "--json=x.json" (by decide) (by decide)
    simpa using h
  · exact json_option_scan.2.2.2.2 ["-w", "3"] "results.json"
      (by intro a ha; fin_cases ha <;> exact ⟨by decide, by decide⟩)
  · have h1 := json_option_scan.1 ["-w"] "" "out.txt" (by decide)
    have h2 := json_option_scan.2.2.2.2 ["-w"] "out.txt"
      (by intro a ha; fin_cases ha; exact ⟨by decide, by decide⟩)
    rw [parseJSONOption, h1, h2]

/-! ## Worker-pool theorems -/

/-- Number of live workers: idle ones plus those holding a target. -/
def alive (s : PoolState) : Nat := s.idle + Multiset.card s.inFlight

/-- Run invariant: targets are conserved across queue, workers and
results; at most `w` workers are ever live; and once a worker has exited
(fewer than `w` live) the work queue is already empty. -/
def PoolInv (w : Nat) (urls : List String) (s : PoolState) : Prop :=
  (↑s.pending + s.inFlight + s.done = (↑urls : Multiset String)) ∧
  alive s ≤ w ∧
  (alive s < w → s.pending = [])

theorem poolInv_init (w : Nat) (urls : List String) : PoolInv w urls (initState w urls) := by
  refine ⟨by simp [initState], by simp [initState, alive], ?_⟩
  intro h
  simp [initState, alive] at h

theorem poolInv_step {w : Nat} {urls : List String} {s t : PoolState}
    (hst : PoolStep s t) (hs : PoolInv w urls s) : PoolInv w urls t := by
  obtain ⟨hsum, hle, hexit⟩ := hs
  cases hst with
  | take u rest inFl idle done =>
      refine ⟨?_, ?_, ?_⟩
      · rw [← hsum]
        simp only [Multiset.add_cons, Multiset.cons_add]
        rw [← Multiset.cons_coe]
        simp only [Multiset.cons_add]
      · simp [alive, Multiset.card_cons] at hle ⊢
        omega
      · intro h
        simp [alive, Multiset.card_cons] at h hexit
        exact absurd h (by omega)
  | finish u pending inFl idle done =>
      refine ⟨?_, ?_, ?_⟩
      · rw [← hsum]
        simp [Multiset.add_cons, Multiset.cons_add]
      · simp [alive, Multiset.card_cons] at hle ⊢
        omega
      · intro h
        simp [alive, Multiset.card_cons] at h hexit
        exact hexit (by omega)
  | exit inFl idle done =>
      refine ⟨by simpa using hsum, ?_, fun _ => rfl⟩
      simp [alive] at hle ⊢
      omega

theorem poolInv_reach {w : Nat} {urls : List String} {s : PoolState}
    (h : PoolReach (initState w urls) s) : PoolInv w urls s := by
  induction h with
  | refl => exact poolInv_init w urls
  | tail _ hstep ih => exact poolInv_step hstep ih

/-- Strictly decreasing measure: every scheduler step makes progress. -/
def poolMeasure (s : PoolState) : Nat :=
  3 * s.pending.length + 2 * Multiset.card s.inFlight + s.idle

/-- C1 counterexample: with worker count 0 and the non-empty input
`["https://a"]`, the initial state is already terminal (the wait group is
empty, so the result channel closes at once) and zero outcomes were
delivered — not one per target as claimed for *every* worker count. -/
theorem zero_workers_lose_targets :
    PoolReach (initState 0 ["https://a"]) (initState 0 ["https://a"]) ∧
    Terminal (initState 0 ["https://a"]) ∧
    Multiset.card ((initState 0 ["https://a"]).done) ≠ (["https://a"] : List String).length := by
  refine ⟨Relation.ReflTransGen.refl, ⟨rfl, rfl⟩, by simp [initState]⟩

/-- C1 (amended to worker counts ≥ 1): under any interleaving, when the
pool reaches a terminal state (all workers finished, result channel
closed) the delivered targets are exactly the input list as a multiset —
same cardinality, no duplicates, no omissions — and the collected records
are exactly one `checkURL` outcome per input target.  Moreover no
reachable non-terminal state is stuck, and every step decreases a fixed
measure, so every run terminates in such a state. -/
theorem pool_delivers_exactly_once (w : Nat) (urls : List String)
    (g : String → FetchResult) (c : String) (hw : 1 ≤ w) (_hne : urls ≠ [])
    (s : PoolState) (hreach : PoolReach (initState w urls) s) (hterm : Terminal s) :
    s.done = (↑urls : Multiset String) ∧
    collected g c s = ↑(urls.map (fun u => checkURL u (g u) c)) ∧
    Multiset.card (collected g c s) = urls.length ∧
    (∀ s' : PoolState, ¬ Terminal s' → ∃ t, PoolStep s' t) ∧
    (∀ s' t : PoolState, PoolStep s' t → poolMeasure t < poolMeasure s') := by
  obtain ⟨hsum, hle, hexit⟩ := poolInv_reach hreach
  obtain ⟨hidle, hfl⟩ := hterm
  have hpend : s.pending = [] := by
    apply hexit
    simp [alive, hidle, hfl]
    omega
  have hdone : s.done = (↑urls : Multiset String) := by
    rw [← hsum, hpend, hfl]
    simp
  have hcoll : collected g c s = ↑(urls.map (fun u => checkURL u (g u) c)) := by
    rw [collected, hdone]
    simp [Multiset.map_coe]
  refine ⟨hdone, hcoll, ?_, ?_, ?_⟩
  · rw [hcoll]
    simp
  · rintro ⟨pending, inFl, idle, done⟩ hnt
    simp only [Terminal, not_and_or] at hnt
    match idle, inFl, pending with
    | idle + 1, inFl, [] => exact ⟨_, PoolStep.exit inFl idle done⟩
    | idle + 1, inFl, u :: rest => exact ⟨_, PoolStep.take u rest inFl idle done⟩
    | 0, inFl, pending =>
        have hne2 : inFl ≠ 0 := by
          rcases hnt with h | h
          · exact absurd rfl h
          · exact h
        obtain ⟨u, hu⟩ := Multiset.exists_mem_of_ne_zero hne2
        obtain ⟨inFl2, rfl⟩ := Multiset.exists_cons_of_mem hu
        exact ⟨_, PoolStep.finish u pending inFl2 0 done⟩
  · intro s' t hst
    cases hst with
    | take u rest inFl idle done => simp [poolMeasure]; omega
    | finish u pending inFl idle done => simp [poolMeasure]; omega
    | exit inFl idle done => simp [poolMeasure]

/-- C1 witness: a full run with one worker over the single target
`"https://a"` — take, finish, exit — reaches the terminal state and the
theorem yields exactly that target's outcome. -/
theorem pool_delivers_witness :
    ({ pending := [], inFlight := 0, idle := 0, done := "https://a" ::ₘ 0 } : PoolState).done
      = (↑(["https://a"]) : Multiset String) := by
  have h1 := PoolStep.take "https://a" [] 0 0 0
  have h2 := PoolStep.finish "https://a" [] 0 0 0
  have h3 := PoolStep.exit 0 0 ("https://a" ::ₘ 0)
  have hreach : PoolReach (initState 1 ["https://a"])
      ⟨[], 0, 0, "https://a" ::ₘ 0⟩ :=
    Relation.ReflTransGen.head h1 (Relation.ReflTransGen.head h2
      (Relation.ReflTransGen.head h3 Relation.ReflTransGen.refl))
  exact (pool_delivers_exactly_once 1 ["https://a"] (fun _ => .getError "e") ""
    (le_refl 1) (by simp) ⟨[], 0, 0, "https://a" ::ₘ 0⟩ hreach ⟨rfl, rfl⟩).1

/-- C9: with worker count 0 (the Go loop `for i := 0; i < workers; i++`
also starts no workers for negative counts) and any input, the initial
state is already terminal — `wg.Wait()` returns at once and the result
channel is closed, so the run ends without deadlock — no step is even
possible, the collected result set is empty, and the rendered table has
no data rows. -/
theorem zero_workers_terminate_empty (urls : List String) (g : String → FetchResult)
    (c : String) :
    Terminal (initState 0 urls) ∧
    collected g c (initState 0 urls) = 0 ∧
    (¬ ∃ t, PoolStep (initState 0 urls) t) ∧
    tableRows [] = [] := by
  refine ⟨⟨rfl, rfl⟩, by simp [collected, initState], ?_, rfl⟩
  rintro ⟨t, hstep⟩
  generalize hs : initState 0 urls = s at hstep
  cases hstep with
  | take u rest inFl idle done =>
      have := congrArg PoolState.idle hs
      simp [initState] at this
  | finish u pending inFl idle done =>
      have := congrArg PoolState.inFlight hs
      simp [initState] at this
  | exit inFl idle done =>
      have := congrArg PoolState.idle hs
      simp [initState] at this

/-! ## Aggregator theorems -/

/-- C5: the report is deterministic and ordered.  When every collected
record is the outcome of its own target (`r = f r.URL`, as the pool
theorem guarantees), any two collections of the per-target outcomes —
e.g. the draining orders of runs with worker counts 1 and 10 — have the
same sorted output under *any* sort satisfying the `sort.Slice` contract,
that output is non-decreasing by target string, and the executable
`sortResults` satisfies the contract. -/
theorem report_sorted_deterministic (f : String → Result) (hf : ∀ u, (f u).URL = u)
    (urls : List String) (rs1 rs2 out1 out2 : List Result)
    (h1 : rs1.Perm (urls.map f)) (h2 : rs2.Perm (urls.map f))
    (hs1 : SortSpec rs1 out1) (hs2 : SortSpec rs2 out2) :
    out1 = out2 ∧ SortedByURL out1 ∧
    (∀ rs : List Result, SortSpec rs (sortResults rs)) := by
  have hmaps : (urls.map f).map Result.URL = urls := by
    rw [List.map_map]
    exact (List.map_congr_left fun a _ => hf a).trans (List.map_id urls)
  have hmem1 : ∀ r ∈ out1, r = f r.URL := by
    intro r hr
    have hr2 : r ∈ urls.map f := h1.subset ((hs1.1.mem_iff).mpr hr)
    obtain ⟨u, _, rfl⟩ := List.mem_map.mp hr2
    rw [hf u]
  have hmem2 : ∀ r ∈ out2, r = f r.URL := by
    intro r hr
    have hr2 : r ∈ urls.map f := h2.subset ((hs2.1.mem_iff).mpr hr)
    obtain ⟨u, _, rfl⟩ := List.mem_map.mp hr2
    rw [hf u]
  have pm1 : (out1.map Result.URL).Perm urls := by
    rw [← hmaps]
    exact (hs1.1.symm.trans h1).map Result.URL
  have pm2 : (out2.map Result.URL).Perm urls := by
    rw [← hmaps]
    exact (hs2.1.symm.trans h2).map Result.URL
  have s1 : (out1.map Result.URL).Sorted (fun a b => a ≤ b) := List.pairwise_map.mpr hs1.2
  have s2 : (out2.map Result.URL).Sorted (fun a b => a ≤ b) := List.pairwise_map.mpr hs2.2
  haveI : IsAntisymm String (fun a b => a ≤ b) := ⟨fun _ _ => le_antisymm⟩
  have heq : out1.map Result.URL = out2.map Result.URL :=
    List.eq_of_perm_of_sorted (pm1.trans pm2.symm) s1 s2
  have hlift : ∀ out : List Result, (∀ r ∈ out, r = f r.URL) →
      out = (out.map Result.URL).map f := by
    intro out hmem
    rw [List.map_map]
    calc out = out.map id := (List.map_id out).symm
    _ = out.map (f ∘ Result.URL) := List.map_congr_left fun a ha => hmem a ha
  refine ⟨?_, hs1.2, ?_⟩
  · rw [hlift out1 hmem1, hlift out2 hmem2, heq]
  · intro rs
    constructor
    · exact (List.mergeSort_perm rs _).symm
    · have hs : (List.mergeSort rs (fun a b => decide (a.URL ≤ b.URL))).Pairwise
          (fun a b => decide (a.URL ≤ b.URL) = true) := by
        apply List.sorted_mergeSort
        · intro a b c hab hbc
          exact decide_eq_true (le_trans (of_decide_eq_true hab) (of_decide_eq_true hbc))
        · intro a b
          rcases le_total a.URL b.URL with h | h <;> simp [h]
      exact hs.imp fun hab => of_decide_eq_true hab

/-- C5 witness: two draining orders of the outcomes for targets
`["b", "a"]` (as produced by runs with different worker counts) both sort
to the same ordered report. -/
theorem report_sorted_witness :
    [checkURL "a" (.getError "err") "", checkURL "b" (.getError "err") ""] =
      [checkURL "a" (.getError "err") "", checkURL "b" (.getError "err") ""] ∧
    SortedByURL [checkURL "a" (.getError "err") "", checkURL "b" (.getError "err") ""] ∧
    (∀ rs : List Result, SortSpec rs (sortResults rs)) := by
  have hle : resultLe (checkURL "a" (.getError "err") "") (checkURL "b" (.getError "err") "") := by
    show ("a" : String) ≤ "b"
    rw [String.le_iff_toList_le]
    decide
  have hsort : SortedByURL [checkURL "a" (.getError "err") "",
      checkURL "b" (.getError "err") ""] := by
    refine List.Pairwise.cons ?_ (List.pairwise_singleton _ _)
    intro r hr
    rw [List.mem_singleton] at hr
    rw [hr]
    exact hle
  exact report_sorted_deterministic (fun u => checkURL u (.getError "err") "")
    (fun u => rfl) ["b", "a"]
    [checkURL "b" (.getError "err") "", checkURL "a" (.getError "err") ""]
    [checkURL "a" (.getError "err") "", checkURL "b" (.getError "err") ""]
    [checkURL "a" (.getError "err") "", checkURL "b" (.getError "err") ""]
    [checkURL "a" (.getError "err") "", checkURL "b" (.getError "err") ""]
    (List.Perm.refl _)
    (List.Perm.swap (checkURL "b" (.getError "err") "") (checkURL "a" (.getError "err") "") [])
    ⟨List.Perm.swap (checkURL "a" (.getError "err") "") (checkURL "b" (.getError "err") "") [],
      hsort⟩
    ⟨List.Perm.refl _, hsort⟩

end URLHealth
